import Mathlib

/-!
Verification development for the artistassistapp repository.

The file embeds, in Lean 4:
* the IndexedDB schema and upgrade routine of `src/services/db/db.ts`;
* the pure helpers of the `PaintSetChooser` UI component
  (`getStoreBoughtPaintSetOptions`, `formInitialValues`, the save/load of
  `PaintSetDefinition` records);
* the spectral paint-mixing engine (Spectral Mixer, Color Space Converter,
  Mix Search Engine).  The engine's source is not part of the repository
  fragment, so these definitions are modelled from the specification text,
  over exact real arithmetic.
-/

namespace ArtistAssist

/-! ### Persistence layer, embedded from `src/services/db/db.ts` -/

/-- An IndexedDB object store: its name, its optional `keyPath`, and its
indexes as (index name, index key path) pairs. -/
structure ObjectStore where
  name : String
  keyPath : Option String
  indexes : List (String × String)
deriving DecidableEq, Repr

/-- A database is the list of its object stores, in creation order. -/
abbrev DB := List ObjectStore

/-- Embeds `db.objectStoreNames.contains(n)`. -/
def containsStore (db : DB) (n : String) : Bool :=
  db.any (fun s => s.name = n)

/-- Embeds `db.find` of a store by name (for inspecting the schema). -/
def findStore (db : DB) (n : String) : Option ObjectStore :=
  db.find? (fun s => s.name = n)

/-- The `paint-sets` store as created by the upgrade: `keyPath: 'type'`,
with a `by-timestamp` index on `timestamp`. -/
def paintSetsStore : ObjectStore :=
  ⟨"paint-sets", some "type", [("by-timestamp", "timestamp")]⟩

/-- The `color-picker` store as created by the upgrade: no key path. -/
def colorPickerStore : ObjectStore := ⟨"color-picker", none, []⟩

/-- The `paint-mixes` store as created by the upgrade: `keyPath: 'id'`. -/
def paintMixesStore : ObjectStore := ⟨"paint-mixes", some "id", []⟩

/-- The `image-file` store as created by the upgrade: no key path. -/
def imageFileStore : ObjectStore := ⟨"image-file", none, []⟩

/-- Embeds one `if (!db.objectStoreNames.contains(n)) db.createObjectStore(n, …)`
step of the upgrade callback: the store is created (appended) only when no
store of its name exists yet. -/
def createIfAbsent (db : DB) (s : ObjectStore) : DB :=
  if containsStore db s.name then db else db ++ [s]

/-- Embeds the `upgrade` callback of `openDB` in `db.ts`: each of the four
object stores is created only if no store of that name exists yet; the
checks run sequentially against the live database state, in source
order. -/
def upgrade (db : DB) : DB :=
  createIfAbsent
    (createIfAbsent
      (createIfAbsent
        (createIfAbsent db paintSetsStore)
        colorPickerStore)
      paintMixesStore)
    imageFileStore

/-! ### PaintSetChooser component, embedded from the UI source file -/

/-- Paint types are numeric enum values in the source. -/
abbrev PaintType := ℕ

/-- Paint brands are numeric enum values in the source. -/
abbrev PaintBrand := ℕ

/-- A store-bought paint set: a name and the ids of its colors. -/
structure StoreBoughtPaintSet where
  name : String
  colors : List ℕ
deriving DecidableEq, Repr

/-- A cascader option value is a number (a brand, or 0 for the custom set)
or a string (a store-bought set name), mirroring the TS union type. -/
inductive CVal where
  | num (n : ℕ)
  | str (s : String)
deriving DecidableEq, Repr

/-- Embeds the antd `CascaderOption`: a value, an optional label
(`PAINT_BRAND_LABELS[type][brand]?.fullText` may be undefined), and
children. -/
structure CascaderOption where
  value : CVal
  label : Option String
  children : List CascaderOption

/-- Embeds `customPaintSetOption = {value: 0, label: 'Custom paint set'}`. -/
def customPaintSetOption : CascaderOption :=
  ⟨CVal.num 0, some "Custom paint set", []⟩

/-- Embeds `getStoreBoughtPaintSetOptions`.  The `PAINT_BRAND_LABELS`
table lives outside the fragment and is passed as the `brandLabels`
argument; the JS `Map` arguments become association lists in iteration
(insertion) order. -/
def getStoreBoughtPaintSetOptions (brandLabels : PaintType → PaintBrand → Option String)
    (type : Option PaintType)
    (storeBoughtPaintSets : List (PaintBrand × List StoreBoughtPaintSet)) :
    List CascaderOption :=
  match type with
  | none => []
  | some t =>
    if storeBoughtPaintSets = [] then []
    else
      customPaintSetOption ::
        storeBoughtPaintSets.map (fun bs =>
          ⟨CVal.num bs.1, brandLabels t bs.1,
            bs.2.map (fun s => ⟨CVal.str s.name, some s.name, []⟩)⟩)

/-- Embeds `PaintSetDefinition`: exactly a (possibly not yet chosen) paint
type, a list of brands, an optional store-bought paint set reference (the
cascader path, a list of cascader values), and a per-brand list of
explicit paint ids.  The field list is read off `formInitialValues` and
the form items of the component. -/
structure PaintSetDefinition where
  type : Option PaintType
  brands : List PaintBrand
  storeBoughtPaintSet : Option (List CVal)
  colors : List (PaintBrand × List ℕ)
deriving DecidableEq, Repr

/-- Embeds `formInitialValues`: all fields empty or undefined. -/
def formInitialValues : PaintSetDefinition :=
  ⟨none, [], none, []⟩

/-- Modelled from the spec: `savePaintSet` of the storage collaborator
(absent from the fragment) stores a `PaintSetDefinition` keyed by its
paint type — the record with the same `type` key is replaced, otherwise
the record is appended. -/
def savePaintSet (v : PaintSetDefinition) (store : List PaintSetDefinition) :
    List PaintSetDefinition :=
  if store.any (fun w => w.type = v.type) then
    store.map (fun w => if w.type = v.type then v else w)
  else
    store ++ [v]

/-- Modelled from the spec: `getPaintSetByType` of the storage
collaborator (absent from the fragment) loads the `PaintSetDefinition`
stored under a paint type key. -/
def getPaintSetByType (t : PaintType) (store : List PaintSetDefinition) :
    Option PaintSetDefinition :=
  store.find? (fun w => w.type = some t)

/-! ### Spectral engine

The engine (Spectral Mixer, Color Space Converter, Mix Search Engine) is
not part of the repository fragment — only its offline calculator script
entry and its data directory are named in `package.json`.  The following
definitions are modelled from the specification text, over exact real
numbers. -/

noncomputable section

open Classical in
/-- A reflectance spectrum: 36 samples at 10nm steps from 380nm to
730nm. -/
abbrev Spectrum := Fin 36 → ℝ

/-- Modelled from the spec: a paint of the Reflectance Dataset — a
numeric id and its reflectance spectrum (brand and name do not enter the
mixing math). -/
structure Paint where
  id : ℕ
  spectrum : Spectrum

/-- Modelled from the spec: the input-validation error of the engine. -/
inductive InputError where
  | ratioSumInvalid
  | unknownPaintId
  | emptyPaintPool
deriving DecidableEq, Repr

/-- Modelled from the spec: the large finite sentinel used for `K/S`
when `R == 0` (fully absorbing), instead of dividing by zero. -/
def ksSentinel : ℝ := 1000000

open Classical in
/-- Modelled from the spec: `K/S = (1−R)² / (2R)`, with the `R == 0`
edge mapped to the finite sentinel (the formula itself yields `0` at
`R == 1`). -/
def ksOfR (r : ℝ) : ℝ :=
  if r = 0 then ksSentinel else (1 - r) ^ 2 / (2 * r)

/-- Clamping of a real to the unit interval `[0,1]`. -/
def clamp01 (x : ℝ) : ℝ := max 0 (min 1 x)

/-- Modelled from the spec: inversion of mixed `K/S` back to
reflectance, `R = 1 + K/S − sqrt((K/S)² + 2·K/S)`, clamped to `[0,1]`. -/
def rOfKS (ks : ℝ) : ℝ :=
  clamp01 (1 + ks - Real.sqrt (ks ^ 2 + 2 * ks))

open Classical in
/-- Looks a paint up in the pool by id (first match). -/
def findPaint (pool : List Paint) (i : ℕ) : Option Paint :=
  pool.find? (fun p => p.id = i)

/-- A `MixRatio` is a mapping from paint id to weight, as an association
list. -/
abbrev MixRatio := List (ℕ × ℝ)

/-- Sum of the ratio weights. -/
def ratioSum (ratios : MixRatio) : ℝ :=
  (ratios.map Prod.snd).sum

open Classical in
/-- Modelled from the spec: per band, the mixed `K/S` is the linear
combination of each referenced paint's `K/S`, weighted by its ratio
(tinting strength defaults to 1). -/
def bandKS (pool : List Paint) (ratios : MixRatio) (band : Fin 36) : ℝ :=
  (ratios.map (fun r =>
    r.2 * ksOfR (((findPaint pool r.1).map (fun p => p.spectrum band)).getD 0))).sum

/-- Modelled from the spec: the mixed spectrum, band by band — combine
`K/S` linearly, then invert to reflectance and clamp to `[0,1]`. -/
def mixSpectrum (pool : List Paint) (ratios : MixRatio) : Spectrum :=
  fun band => rOfKS (bandKS pool ratios band)

open Classical in
/-- Modelled from the spec: `mix(ratios) -> ReflectanceSpectrum`, failing
with `InputError` if the weights do not sum to 1 within the 1e-6
tolerance or some ratio references a paint id absent from the pool. -/
def mix (pool : List Paint) (ratios : MixRatio) : Except InputError Spectrum :=
  if 1e-6 < |ratioSum ratios - 1| then
    Except.error InputError.ratioSumInvalid
  else if ¬ (∀ r ∈ ratios, ∃ p ∈ pool, p.id = r.1) then
    Except.error InputError.unknownPaintId
  else
    Except.ok (mixSpectrum pool ratios)

/-! #### Color Space Converter, modelled from the spec -/

/-- A CIE XYZ triple. -/
abbrev XYZ := ℝ × ℝ × ℝ

/-- A CIE Lab triple. -/
abbrev Lab := ℝ × ℝ × ℝ

/-- Modelled from the spec: `spectrumToXYZ` integrates (discrete sum over
the 36 bands) spectrum × illuminant × color-matching function, normalized
by the illuminant's integral over Y.  Illuminant and observer CMF are
explicit arguments, as in the specified signature. -/
def spectrumToXYZ (s : Spectrum) (ill : Spectrum) (cmfX cmfY cmfZ : Spectrum) : XYZ :=
  let n : ℝ := ∑ i, ill i * cmfY i
  ((∑ i, s i * ill i * cmfX i) / n,
   (∑ i, s i * ill i * cmfY i) / n,
   (∑ i, s i * ill i * cmfZ i) / n)

open Classical in
/-- Modelled from the spec: the CIE piecewise cube-root companding
function of the XYZ→Lab transform (threshold ε, slope κ per CIE
convention). -/
def labF (t : ℝ) : ℝ :=
  if 216 / 24389 < t then t ^ ((1 : ℝ) / 3) else ((24389 / 27) * t + 16) / 116

/-- Modelled from the spec: the standard nonlinear XYZ→Lab transform with
reference white normalization. -/
def xyzToLab (c : XYZ) (white : XYZ) : Lab :=
  let fx := labF (c.1 / white.1)
  let fy := labF (c.2.1 / white.2.1)
  let fz := labF (c.2.2 / white.2.2)
  (116 * fy - 16, 500 * (fx - fy), 200 * (fy - fz))

/-- Modelled from the spec: `labDistance` is the CIE color-difference
formula (Euclidean distance in Lab space), the search objective. -/
def labDistance (a b : Lab) : ℝ :=
  Real.sqrt ((a.1 - b.1) ^ 2 + (a.2.1 - b.2.1) ^ 2 + (a.2.2 - b.2.2) ^ 2)

/-! #### Mix Search Engine, modelled from the spec -/

/-- Modelled from the spec: a `PaintMix` value object — the referenced
paint ids with their ratios, the predicted Lab color, and the
match-quality score (perceptual distance to the target). -/
structure PaintMix where
  ids : List ℕ
  ratios : List ℝ
  lab : Lab
  score : ℝ

/-- The ranking key of a candidate mix: score first, then (for the
specified tie-break) the number of paints in the mix, then the paint ids
in order — compared lexicographically. -/
def mixKey (m : PaintMix) : Lex (ℝ × Lex (ℕ × List ℕ)) :=
  toLex (m.score, toLex (m.ids.length, m.ids))

/-- Modelled from the spec: the ordering of search results — by score,
ties broken by fewer paints in the mix, then by paint id order. -/
def mixLE (a b : PaintMix) : Prop :=
  mixKey a ≤ mixKey b

noncomputable instance mixLEDec : DecidableRel mixLE :=
  fun _ _ => Classical.propDecidable _

instance : IsTotal PaintMix mixLE :=
  ⟨fun a b => le_total (mixKey a) (mixKey b)⟩

instance : IsTrans PaintMix mixLE :=
  ⟨fun _ _ _ hab hbc => le_trans hab hbc⟩

/-- Enumerates the simplex grid: lists of `m` positive integer grid
counts summing to `g` (each ratio is its count over `g`). -/
def comps : ℕ → ℕ → List (List ℕ)
  | 0, g => if g = 0 then [[]] else []
  | m + 1, g =>
    (List.range g).flatMap (fun k =>
      (comps m (g - (k + 1))).map (fun t => (k + 1) :: t))

/-- Modelled from the spec: evaluation of one surviving ratio point —
Spectral Mixer, then Color Space Converter to Lab, then `labDistance` to
the target. -/
def evalMix (ill cmfX cmfY cmfZ : Spectrum) (white : XYZ) (target : Lab)
    (pool : List Paint) (g : ℕ) (subset : List Paint) (ks : List ℕ) : PaintMix :=
  let ids := subset.map Paint.id
  let rs := ks.map (fun k => (k : ℝ) / g)
  let s := mixSpectrum pool (ids.zip rs)
  let lab := xyzToLab (spectrumToXYZ s ill cmfX cmfY cmfZ) white
  ⟨ids, rs, lab, labDistance lab target⟩

/-- Modelled from the spec: `findBestMixes(targetColor, paintSet,
maxResults)` — an empty paint pool is rejected synchronously with
`InputError`; otherwise all subsets of size 1..K of the pool, crossed
with the simplex ratio grid of resolution `g`, are evaluated, and the
candidates are returned best-first under the tie-break order, truncated
to `maxResults`.  Illuminant, observer CMF and reference white are
explicit arguments, per the design note banning ambient singletons. -/
def findBestMixes (ill cmfX cmfY cmfZ : Spectrum) (white : XYZ) (target : Lab)
    (pool : List Paint) (K g maxResults : ℕ) : Except InputError (List PaintMix) :=
  if pool.isEmpty then Except.error InputError.emptyPaintPool
  else
    let subsets := pool.sublists.filter (fun s => decide (1 ≤ s.length ∧ s.length ≤ K))
    let candidates := subsets.flatMap (fun subset =>
      (comps subset.length g).map (evalMix ill cmfX cmfY cmfZ white target pool g subset))
    Except.ok ((candidates.insertionSort mixLE).take maxResults)

/-- The result list of a search, the empty list when the search failed
(an error carries no partial results). -/
def bestList (ill cmfX cmfY cmfZ : Spectrum) (white : XYZ) (target : Lab)
    (pool : List Paint) (K g maxResults : ℕ) : List PaintMix :=
  (findBestMixes ill cmfX cmfY cmfZ white target pool K g maxResults).toOption.getD []

end

/-! ## Helper lemmas about the persistence layer -/

theorem containsStore_append (db l : DB) (n : String) :
    containsStore (db ++ l) n = (containsStore db n || containsStore l n) :=
  List.any_append

theorem containsStore_append_false_left {db l : DB} {n : String}
    (h : containsStore (db ++ l) n = false) : containsStore db n = false := by
  rw [containsStore_append] at h
  exact (Bool.or_eq_false_iff.mp h).1

theorem createIfAbsent_append (db : DB) (s : ObjectStore) :
    ∃ r, createIfAbsent db s = db ++ r ∧ ∀ t ∈ r, containsStore db t.name = false := by
  by_cases h : containsStore db s.name = true
  · exact ⟨[], by simp [createIfAbsent, h]⟩
  · refine ⟨[s], by simp [createIfAbsent, h], ?_⟩
    intro t ht
    simp only [List.mem_singleton] at ht
    subst ht
    simpa using h

theorem containsStore_createIfAbsent_self (db : DB) (s : ObjectStore) :
    containsStore (createIfAbsent db s) s.name = true := by
  by_cases h : containsStore db s.name = true
  · rw [createIfAbsent, if_pos h]
    exact h
  · rw [createIfAbsent, if_neg h, containsStore_append]
    have hs : containsStore [s] s.name = true := by simp [containsStore]
    rw [hs, Bool.or_true]

theorem containsStore_createIfAbsent_mono (db : DB) (s : ObjectStore) (n : String)
    (h : containsStore db n = true) :
    containsStore (createIfAbsent db s) n = true := by
  obtain ⟨r, hr, -⟩ := createIfAbsent_append db s
  rw [hr, containsStore_append, h]
  rfl

theorem createIfAbsent_of_contains (db : DB) (s : ObjectStore)
    (h : containsStore db s.name = true) : createIfAbsent db s = db := by
  simp [createIfAbsent, h]

theorem containsStore_createIfAbsent_other (db : DB) (s : ObjectStore) (n : String)
    (h : ¬ s.name = n) :
    containsStore (createIfAbsent db s) n = containsStore db n := by
  by_cases hc : containsStore db s.name = true
  · rw [createIfAbsent, if_pos hc]
  · rw [createIfAbsent, if_neg hc, containsStore_append]
    have hs : containsStore [s] n = false := by simp [containsStore, h]
    rw [hs, Bool.or_false]

theorem findStore_createIfAbsent_other (db : DB) (s : ObjectStore) (n : String)
    (h : ¬ s.name = n) :
    findStore (createIfAbsent db s) n = findStore db n := by
  by_cases hc : containsStore db s.name = true
  · rw [createIfAbsent, if_pos hc]
  · rw [createIfAbsent, if_neg hc]
    have hs : findStore [s] n = none := by simp [findStore, h]
    have : findStore (db ++ [s]) n = (findStore db n).or (findStore [s] n) := by
      simp [findStore, List.find?_append]
    rw [this, hs, Option.or_none]

theorem findStore_createIfAbsent_self (db : DB) (s : ObjectStore)
    (h : containsStore db s.name = false) :
    findStore (createIfAbsent db s) s.name = some s := by
  have hc : ¬ containsStore db s.name = true := by simp [h]
  have hn : findStore db s.name = none := by
    refine List.find?_eq_none.mpr ?_
    intro t ht
    have := List.any_eq_false.mp h
    simpa using this t ht
  have hs : findStore [s] s.name = some s := by simp [findStore]
  have ha : findStore (db ++ [s]) s.name = (findStore db s.name).or (findStore [s] s.name) := by
    simp [findStore, List.find?_append]
  rw [createIfAbsent, if_neg hc, ha, hn, hs, Option.none_or]

/-! ## Claim theorems about the persistence layer -/

/-- C10: the database upgrade creates each of the four object stores
(`paint-sets`, `color-picker`, `paint-mixes`, `image-file`) only when a
store of that name does not already exist (whatever it appends was absent
beforehand), leaves every preexisting store unchanged (the old database
is a prefix of the upgraded one), guarantees that all four stores exist
afterwards, and is idempotent. -/
theorem upgrade_creates_only_absent_and_idempotent (db : DB) :
    (∃ rest, upgrade db = db ++ rest ∧ ∀ t ∈ rest, containsStore db t.name = false) ∧
    (containsStore (upgrade db) "paint-sets" = true ∧
      containsStore (upgrade db) "color-picker" = true ∧
      containsStore (upgrade db) "paint-mixes" = true ∧
      containsStore (upgrade db) "image-file" = true) ∧
    upgrade (upgrade db) = upgrade db := by
  have hps : containsStore (upgrade db) "paint-sets" = true := by
    exact containsStore_createIfAbsent_mono _ _ _
      (containsStore_createIfAbsent_mono _ _ _
        (containsStore_createIfAbsent_mono _ _ _
          (containsStore_createIfAbsent_self db paintSetsStore)))
  have hcp : containsStore (upgrade db) "color-picker" = true := by
    exact containsStore_createIfAbsent_mono _ _ _
      (containsStore_createIfAbsent_mono _ _ _
        (containsStore_createIfAbsent_self _ colorPickerStore))
  have hpm : containsStore (upgrade db) "paint-mixes" = true := by
    exact containsStore_createIfAbsent_mono _ _ _
      (containsStore_createIfAbsent_self _ paintMixesStore)
  have hif : containsStore (upgrade db) "image-file" = true := by
    exact containsStore_createIfAbsent_self _ imageFileStore
  refine ⟨?_, ⟨hps, hcp, hpm, hif⟩, ?_⟩
  · obtain ⟨r1, e1, a1⟩ := createIfAbsent_append db paintSetsStore
    obtain ⟨r2, e2, a2⟩ := createIfAbsent_append (createIfAbsent db paintSetsStore) colorPickerStore
    obtain ⟨r3, e3, a3⟩ :=
      createIfAbsent_append
        (createIfAbsent (createIfAbsent db paintSetsStore) colorPickerStore) paintMixesStore
    obtain ⟨r4, e4, a4⟩ :=
      createIfAbsent_append
        (createIfAbsent (createIfAbsent (createIfAbsent db paintSetsStore) colorPickerStore)
          paintMixesStore) imageFileStore
    refine ⟨r1 ++ (r2 ++ (r3 ++ r4)), ?_, ?_⟩
    · show upgrade db = _
      rw [upgrade, e4, e3, e2, e1]
      simp [List.append_assoc]
    · intro t ht
      rcases List.mem_append.mp ht with h1 | ht
      · exact a1 t h1
      rcases List.mem_append.mp ht with h2 | ht
      · have := a2 t h2
        rw [e1] at this
        exact containsStore_append_false_left this
      rcases List.mem_append.mp ht with h3 | h4
      · have := a3 t h3
        rw [e2, e1] at this
        exact containsStore_append_false_left (containsStore_append_false_left this)
      · have := a4 t h4
        rw [e3, e2, e1] at this
        exact containsStore_append_false_left
          (containsStore_append_false_left (containsStore_append_false_left this))
  · conv_lhs => rw [upgrade]
    rw [createIfAbsent_of_contains _ paintSetsStore hps,
        createIfAbsent_of_contains _ colorPickerStore hcp,
        createIfAbsent_of_contains _ paintMixesStore hpm,
        createIfAbsent_of_contains _ imageFileStore hif]

/-- C2: on a database that does not yet hold them, the upgrade creates
the `paint-sets` object store keyed by the record's `type` field and the
`paint-mixes` object store keyed by the record's `id` field. -/
theorem paintSets_paintMixes_key_fields (db : DB)
    (h1 : containsStore db "paint-sets" = false)
    (h2 : containsStore db "paint-mixes" = false) :
    findStore (upgrade db) "paint-sets" = some paintSetsStore ∧
    findStore (upgrade db) "paint-mixes" = some paintMixesStore ∧
    paintSetsStore.keyPath = some "type" ∧
    paintMixesStore.keyPath = some "id" := by
  refine ⟨?_, ?_, rfl, rfl⟩
  · rw [upgrade,
        findStore_createIfAbsent_other _ imageFileStore _ (by decide),
        findStore_createIfAbsent_other _ paintMixesStore _ (by decide),
        findStore_createIfAbsent_other _ colorPickerStore _ (by decide)]
    exact findStore_createIfAbsent_self db paintSetsStore h1
  · rw [upgrade, findStore_createIfAbsent_other _ imageFileStore _ (by decide)]
    have hc : containsStore
        (createIfAbsent (createIfAbsent db paintSetsStore) colorPickerStore)
        "paint-mixes" = false := by
      rw [containsStore_createIfAbsent_other _ _ _ (by decide),
          containsStore_createIfAbsent_other _ _ _ (by decide)]
      exact h2
    exact findStore_createIfAbsent_self _ paintMixesStore hc

/-- Witness for C2, on the fresh (empty) database. -/
theorem paintSets_paintMixes_key_fields_witness :
    findStore (upgrade []) "paint-sets" = some paintSetsStore ∧
    findStore (upgrade []) "paint-mixes" = some paintMixesStore ∧
    paintSetsStore.keyPath = some "type" ∧
    paintMixesStore.keyPath = some "id" :=
  paintSets_paintMixes_key_fields [] rfl rfl

/-! ## Claim theorems about the PaintSetChooser helpers -/

/-- C9: with a defined paint type and a non-empty store-bought paint set
map, `getStoreBoughtPaintSetOptions` returns the custom paint set option
(value 0, label `Custom paint set`) followed by one cascader option per
brand with one child per named set; with an undefined type or an empty
map it returns the empty list. -/
theorem getStoreBoughtPaintSetOptions_shape
    (labels : PaintType → PaintBrand → Option String)
    (type : Option PaintType)
    (sets : List (PaintBrand × List StoreBoughtPaintSet)) :
    ((type = none ∨ sets = []) →
      getStoreBoughtPaintSetOptions labels type sets = []) ∧
    (∀ t, type = some t → sets ≠ [] →
      getStoreBoughtPaintSetOptions labels type sets =
        customPaintSetOption ::
          sets.map (fun bs =>
            ⟨CVal.num bs.1, labels t bs.1,
              bs.2.map (fun s => ⟨CVal.str s.name, some s.name, []⟩)⟩)) ∧
    customPaintSetOption.value = CVal.num 0 ∧
    customPaintSetOption.label = some "Custom paint set" := by
  refine ⟨?_, ?_, rfl, rfl⟩
  · rintro (rfl | rfl)
    · rfl
    · cases type <;> simp [getStoreBoughtPaintSetOptions]
  · rintro t rfl hne
    simp [getStoreBoughtPaintSetOptions, hne]

/-- Helper for C8: in a store where some record shares the saved record's
type key, replacement stores the record so that loading by its type key
returns it. -/
theorem find_replaced (v : PaintSetDefinition) (t : PaintType) (h : v.type = some t) :
    ∀ store : List PaintSetDefinition, store.any (fun w => w.type = v.type) = true →
      (store.map (fun w => if w.type = v.type then v else w)).find?
        (fun w => w.type = some t) = some v := by
  intro store
  induction store with
  | nil => intro ha; simp at ha
  | cons w ws ih =>
    intro ha
    by_cases hw : w.type = v.type
    · simp only [List.map_cons, if_pos hw]
      rw [List.find?_cons_of_pos]
      simp [h]
    · simp only [List.map_cons, if_neg hw]
      have hpw : ¬ (w.type = some t) := fun hh => hw (by rw [hh, ← h])
      have ha' : ws.any (fun w => w.type = v.type) = true := by
        rcases List.any_eq_true.mp ha with ⟨x, hx, hpx⟩
        rcases List.mem_cons.mp hx with rfl | hx'
        · exact absurd (by simpa using hpx) hw
        · exact List.any_eq_true.mpr ⟨x, hx', hpx⟩
      rw [List.find?_cons_of_neg]
      · exact ih ha'
      · simpa using hpw

/-- C8: a `PaintSetDefinition` consists of exactly its four components —
paint type, brand list, optional store-bought paint set reference, and
per-brand explicit paint id lists; the form starts from the all-empty
record of that shape, and a submitted record is saved unchanged, keyed by
its paint type, from where loading by that type returns it. -/
theorem paintSetDefinition_shape_and_roundtrip (v : PaintSetDefinition)
    (store : List PaintSetDefinition) (t : PaintType) (h : v.type = some t) :
    v = ⟨v.type, v.brands, v.storeBoughtPaintSet, v.colors⟩ ∧
    formInitialValues = ⟨none, [], none, []⟩ ∧
    getPaintSetByType t (savePaintSet v store) = some v := by
  refine ⟨rfl, rfl, ?_⟩
  by_cases ha : store.any (fun w => w.type = v.type) = true
  · rw [savePaintSet, if_pos ha]
    exact find_replaced v t h store ha
  · rw [savePaintSet, if_neg ha]
    show (store ++ [v]).find? (fun w => w.type = some t) = some v
    rw [List.find?_append]
    have h1 : store.find? (fun w => decide (w.type = some t)) = none := by
      refine List.find?_eq_none.mpr ?_
      intro x hx hpx
      apply ha
      refine List.any_eq_true.mpr ⟨x, hx, ?_⟩
      have hxt : x.type = some t := by simpa using hpx
      simp [hxt, h]
    have h2 : [v].find? (fun w => decide (w.type = some t)) = some v := by
      simp [h]
    rw [h1, h2, Option.none_or]

/-- A sample submitted paint set definition, for the C8 witness. -/
def sampleDefinition : PaintSetDefinition :=
  ⟨some 1, [2], some [CVal.num 0], [(2, [3, 4])]⟩

/-- Witness for C8, at a concrete record saved into the empty store. -/
theorem paintSetDefinition_shape_and_roundtrip_witness :
    sampleDefinition =
      ⟨sampleDefinition.type, sampleDefinition.brands,
        sampleDefinition.storeBoughtPaintSet, sampleDefinition.colors⟩ ∧
    formInitialValues = ⟨none, [], none, []⟩ ∧
    getPaintSetByType 1 (savePaintSet sampleDefinition []) = some sampleDefinition :=
  paintSetDefinition_shape_and_roundtrip sampleDefinition [] 1 rfl

/-! ## Claim theorems about the Color Space Converter -/

/-- C4: `labDistance` is symmetric, vanishes on the diagonal, and is zero
exactly when the two Lab triples agree component-wise (the model works in
exact real arithmetic, so agreement within floating tolerance is exact
agreement). -/
theorem labDistance_symm_zero_iff (x y : Lab) :
    labDistance x y = labDistance y x ∧
    labDistance x x = 0 ∧
    (labDistance x y = 0 ↔ x = y) := by
  obtain ⟨xL, xa, xb⟩ := x
  obtain ⟨yL, ya, yb⟩ := y
  have hdiag : ∀ z : Lab, labDistance z z = 0 := by
    intro z
    simp [labDistance]
  refine ⟨?_, hdiag _, ?_, ?_⟩
  · unfold labDistance
    congr 1
    ring
  · intro h0
    have hle : (xL - yL) ^ 2 + (xa - ya) ^ 2 + (xb - yb) ^ 2 ≤ 0 :=
      Real.sqrt_eq_zero'.mp h0
    have h1 : (xL - yL) ^ 2 = 0 := by
      nlinarith [sq_nonneg (xL - yL), sq_nonneg (xa - ya), sq_nonneg (xb - yb)]
    have h2 : (xa - ya) ^ 2 = 0 := by
      nlinarith [sq_nonneg (xL - yL), sq_nonneg (xa - ya), sq_nonneg (xb - yb)]
    have h3 : (xb - yb) ^ 2 = 0 := by
      nlinarith [sq_nonneg (xL - yL), sq_nonneg (xa - ya), sq_nonneg (xb - yb)]
    have e1 := sub_eq_zero.mp (sq_eq_zero_iff.mp h1)
    have e2 := sub_eq_zero.mp (sq_eq_zero_iff.mp h2)
    have e3 := sub_eq_zero.mp (sq_eq_zero_iff.mp h3)
    rw [e1, e2, e3]
  · intro h
    rw [h]
    exact hdiag _

/-! ## Claim theorems about the Mix Search Engine -/

/-- C7: `findBestMixes` on an empty paint pool fails synchronously with
`InputError`, and its result list is empty (the error carries no partial
results). -/
theorem findBestMixes_empty_pool (ill cmfX cmfY cmfZ : Spectrum) (white : XYZ)
    (target : Lab) (K g N : ℕ) :
    findBestMixes ill cmfX cmfY cmfZ white target [] K g N =
      Except.error InputError.emptyPaintPool ∧
    bestList ill cmfX cmfY cmfZ white target [] K g N = [] := by
  constructor
  · rfl
  · rfl

/-- C5: `findBestMixes` is deterministic — equal inputs give equal
outputs — the returned sequence is sorted under the result order
`mixLE`, and `mixLE` breaks score ties by fewer paints in the mix and
then by paint id order. -/
theorem findBestMixes_deterministic_sorted (ill cmfX cmfY cmfZ : Spectrum) (white : XYZ)
    (target : Lab) (pool : List Paint) (K g N : ℕ) :
    findBestMixes ill cmfX cmfY cmfZ white target pool K g N =
      findBestMixes ill cmfX cmfY cmfZ white target pool K g N ∧
    (bestList ill cmfX cmfY cmfZ white target pool K g N).Sorted mixLE ∧
    (∀ a b : PaintMix, a.score = b.score → a.ids.length < b.ids.length →
      mixLE a b ∧ ¬ mixLE b a) ∧
    (∀ a b : PaintMix, a.score = b.score → a.ids.length = b.ids.length →
      (mixLE a b ↔ a.ids ≤ b.ids)) := by
  refine ⟨rfl, ?_, ?_, ?_⟩
  · by_cases hp : pool.isEmpty = true
    · simp only [bestList, findBestMixes, hp, if_true]
      exact List.sorted_nil
    · simp only [bestList, findBestMixes, hp, if_false, Bool.false_eq_true,
        Except.toOption, Option.getD]
      exact List.Pairwise.sublist (List.take_sublist N _)
        (List.sorted_insertionSort mixLE _)
  · intro a b hs hl
    constructor
    · refine (Prod.Lex.le_iff _ _).mpr (Or.inr ⟨hs, ?_⟩)
      exact (Prod.Lex.le_iff _ _).mpr (Or.inl hl)
    · intro hba
      rcases (Prod.Lex.le_iff _ _).mp hba with hlt | ⟨-, hinner⟩
      · exact absurd (hs ▸ hlt) (lt_irrefl _)
      · rcases (Prod.Lex.le_iff _ _).mp hinner with hlt2 | ⟨heq2, -⟩
        · omega
        · omega
  · intro a b hs hl
    constructor
    · intro hab
      rcases (Prod.Lex.le_iff _ _).mp hab with hlt | ⟨-, hinner⟩
      · exact absurd (hs ▸ hlt) (lt_irrefl _)
      · rcases (Prod.Lex.le_iff _ _).mp hinner with hlt2 | ⟨-, hids⟩
        · omega
        · exact hids
    · intro hids
      refine (Prod.Lex.le_iff _ _).mpr (Or.inr ⟨hs, ?_⟩)
      exact (Prod.Lex.le_iff _ _).mpr (Or.inr ⟨hl, hids⟩)

/-! ## Helper lemmas about the Spectral Mixer -/

theorem clamp01_mem (x : ℝ) : 0 ≤ clamp01 x ∧ clamp01 x ≤ 1 :=
  ⟨le_max_left 0 _, max_le (by norm_num) (min_le_left 1 x)⟩

/-- The K/S round trip is exact at every reflectance in `(0, 1]`. -/
theorem rOfKS_ksOfR_pos {r : ℝ} (h0 : 0 < r) (h1 : r ≤ 1) :
    rOfKS (ksOfR r) = r := by
  have hne : r ≠ 0 := ne_of_gt h0
  rw [ksOfR, if_neg hne, rOfKS]
  have hsq : ((1 - r) ^ 2 / (2 * r)) ^ 2 + 2 * ((1 - r) ^ 2 / (2 * r)) =
      ((1 - r ^ 2) / (2 * r)) ^ 2 := by
    field_simp
    ring
  have hnn : 0 ≤ (1 - r ^ 2) / (2 * r) :=
    div_nonneg (by nlinarith) (by linarith)
  rw [hsq, Real.sqrt_sq hnn]
  have hval : 1 + (1 - r) ^ 2 / (2 * r) - (1 - r ^ 2) / (2 * r) = r := by
    field_simp
    ring
  rw [hval, clamp01, min_eq_right h1, max_eq_right (le_of_lt h0)]

/-- At reflectance exactly 0 the sentinel keeps the round trip within the
1e-6 tolerance (and above 0). -/
theorem rOfKS_ksOfR_zero :
    0 ≤ rOfKS (ksOfR 0) ∧ rOfKS (ksOfR 0) ≤ 1e-6 := by
  rw [ksOfR, if_pos rfl, rOfKS]
  have hub : Real.sqrt (ksSentinel ^ 2 + 2 * ksSentinel) ≤ ksSentinel + 1 := by
    calc Real.sqrt (ksSentinel ^ 2 + 2 * ksSentinel)
        ≤ Real.sqrt ((ksSentinel + 1) ^ 2) :=
          Real.sqrt_le_sqrt (by norm_num [ksSentinel])
      _ = ksSentinel + 1 := Real.sqrt_sq (by norm_num [ksSentinel])
  have hlb : ksSentinel + 1 - 1e-6 ≤ Real.sqrt (ksSentinel ^ 2 + 2 * ksSentinel) := by
    refine (Real.le_sqrt (by norm_num [ksSentinel]) (by norm_num [ksSentinel])).mpr ?_
    norm_num [ksSentinel]
  have hv0 : 0 ≤ 1 + ksSentinel - Real.sqrt (ksSentinel ^ 2 + 2 * ksSentinel) := by
    linarith
  have hv1 : 1 + ksSentinel - Real.sqrt (ksSentinel ^ 2 + 2 * ksSentinel) ≤ 1e-6 := by
    linarith
  rw [clamp01, min_eq_right (by linarith : 1 + ksSentinel -
        Real.sqrt (ksSentinel ^ 2 + 2 * ksSentinel) ≤ 1),
      max_eq_right hv0]
  exact ⟨hv0, hv1⟩

/-! ## Claim theorems about the Spectral Mixer -/

/-- C3: `mix` fails with `InputError` exactly when the ratio weights
deviate from summing to 1 by more than 1e-6 or some ratio references a
paint id absent from the pool; on every other input it returns the mixed
reflectance spectrum. -/
theorem mix_error_iff (pool : List Paint) (ratios : MixRatio) :
    ((∃ e, mix pool ratios = Except.error e) ↔
      (1e-6 < |ratioSum ratios - 1| ∨ ∃ r ∈ ratios, ∀ p ∈ pool, p.id ≠ r.1)) ∧
    ((∃ s, mix pool ratios = Except.ok s) ↔
      ¬ (1e-6 < |ratioSum ratios - 1| ∨ ∃ r ∈ ratios, ∀ p ∈ pool, p.id ≠ r.1)) := by
  by_cases h1 : 1e-6 < |ratioSum ratios - 1|
  · have herr : mix pool ratios = Except.error InputError.ratioSumInvalid := by
      rw [mix, if_pos h1]
    refine ⟨⟨fun _ => Or.inl h1, fun _ => ⟨_, herr⟩⟩, ?_, ?_⟩
    · rintro ⟨s, hs⟩
      rw [herr] at hs
      exact Except.noConfusion hs
    · intro hn
      exact absurd (Or.inl h1) hn
  · by_cases h2 : ∀ r ∈ ratios, ∃ p ∈ pool, p.id = r.1
    · have hok : mix pool ratios = Except.ok (mixSpectrum pool ratios) := by
        rw [mix, if_neg h1, if_neg (not_not_intro h2)]
      have hnot : ¬ (1e-6 < |ratioSum ratios - 1| ∨
          ∃ r ∈ ratios, ∀ p ∈ pool, p.id ≠ r.1) := by
        rintro (hc | ⟨r, hr, hall⟩)
        · exact h1 hc
        · obtain ⟨p, hp, hid⟩ := h2 r hr
          exact hall p hp hid
      refine ⟨⟨?_, fun hc => absurd hc hnot⟩, fun _ => hnot, fun _ => ⟨_, hok⟩⟩
      rintro ⟨e, he⟩
      rw [hok] at he
      exact Except.noConfusion he
    · have herr : mix pool ratios = Except.error InputError.unknownPaintId := by
        rw [mix, if_neg h1, if_pos h2]
      have hex : ∃ r ∈ ratios, ∀ p ∈ pool, p.id ≠ r.1 := by
        push_neg at h2
        exact h2
      refine ⟨⟨fun _ => Or.inr hex, fun _ => ⟨_, herr⟩⟩, ?_, ?_⟩
      · rintro ⟨s, hs⟩
        rw [herr] at hs
        exact Except.noConfusion hs
      · intro hn
        exact absurd (Or.inr hex) hn

/-- C6: on spectra whose bands lie in `[0,1]` — bands exactly 0 or 1
included — the mixer raises nothing: `R == 0` maps to the large finite
sentinel, `R == 1` maps to `K/S = 0`, valid ratios produce a spectrum,
and every band of the result lies in `[0,1]`. -/
theorem mix_boundary_safe (pool : List Paint) (ratios : MixRatio)
    (hbands : ∀ p ∈ pool, ∀ i : Fin 36, 0 ≤ p.spectrum i ∧ p.spectrum i ≤ 1)
    (hsum : |ratioSum ratios - 1| ≤ 1e-6)
    (hids : ∀ r ∈ ratios, ∃ p ∈ pool, p.id = r.1) :
    ksOfR 0 = ksSentinel ∧
    ksOfR 1 = 0 ∧
    mix pool ratios = Except.ok (mixSpectrum pool ratios) ∧
    ∀ i : Fin 36, 0 ≤ mixSpectrum pool ratios i ∧ mixSpectrum pool ratios i ≤ 1 := by
  refine ⟨?_, ?_, ?_, ?_⟩
  · rw [ksOfR, if_pos rfl]
  · rw [ksOfR, if_neg one_ne_zero]
    norm_num
  · rw [mix, if_neg (not_lt.mpr hsum), if_neg (not_not_intro hids)]
  · intro i
    exact clamp01_mem _

/-- C1: mixing a single paint of the pool at ratio 1 succeeds and
reproduces the paint's own spectrum within 1e-6 per band, bands in
`[0,1]` assumed (the K/S round trip is exact away from 0 and within the
tolerance at the fully absorbing sentinel). -/
theorem mix_single_identity (pool : List Paint) (p : Paint)
    (hfind : findPaint pool p.id = some p)
    (hband : ∀ i : Fin 36, 0 ≤ p.spectrum i ∧ p.spectrum i ≤ 1) :
    mix pool [(p.id, 1)] = Except.ok (mixSpectrum pool [(p.id, 1)]) ∧
    ∀ i : Fin 36, |mixSpectrum pool [(p.id, 1)] i - p.spectrum i| ≤ 1e-6 := by
  constructor
  · have hsum : ¬ (1e-6 < |ratioSum [(p.id, 1)] - 1|) := by
      norm_num [ratioSum]
    have hids : ∀ r ∈ [(p.id, (1 : ℝ))], ∃ q ∈ pool, q.id = r.1 := by
      intro r hr
      simp only [List.mem_singleton] at hr
      subst hr
      exact ⟨p, List.mem_of_find?_eq_some hfind, rfl⟩
    rw [mix, if_neg hsum, if_neg (not_not_intro hids)]
  · intro i
    have hks : bandKS pool [(p.id, 1)] i = ksOfR (p.spectrum i) := by
      simp [bandKS, hfind]
    show |rOfKS (bandKS pool [(p.id, 1)] i) - p.spectrum i| ≤ 1e-6
    rw [hks]
    obtain ⟨h0, h1⟩ := hband i
    rcases eq_or_lt_of_le h0 with hz | hpos
    · obtain ⟨ha, hb⟩ := rOfKS_ksOfR_zero
      rw [← hz, sub_zero, abs_of_nonneg ha]
      exact hb
    · rw [rOfKS_ksOfR_pos hpos h1, sub_self, abs_zero]
      norm_num

noncomputable section

/-- A sample paint whose spectrum touches the 0 boundary, for the C1
witness. -/
def samplePaint : Paint :=
  ⟨5, fun i => if i = 0 then 0 else 1 / 2⟩

/-- A sample paint whose spectrum takes exactly the boundary values 0 and
1, for the C6 witness. -/
def boundaryPaint : Paint :=
  ⟨7, fun i => if i = 0 then 0 else 1⟩

end

/-- Witness for C1, at a concrete paint with a band at the 0 boundary. -/
theorem mix_single_identity_witness :
    mix [samplePaint] [(samplePaint.id, 1)] =
      Except.ok (mixSpectrum [samplePaint] [(samplePaint.id, 1)]) ∧
    ∀ i : Fin 36,
      |mixSpectrum [samplePaint] [(samplePaint.id, 1)] i - samplePaint.spectrum i| ≤ 1e-6 :=
  mix_single_identity [samplePaint] samplePaint
    (by simp [findPaint, samplePaint])
    (by
      intro i
      by_cases h : i = (0 : Fin 36) <;> simp [samplePaint, h] <;> norm_num)

/-- Witness for C6, at a concrete paint whose bands are exactly 0 and 1. -/
theorem mix_boundary_safe_witness :
    ksOfR 0 = ksSentinel ∧
    ksOfR 1 = 0 ∧
    mix [boundaryPaint] [(boundaryPaint.id, 1)] =
      Except.ok (mixSpectrum [boundaryPaint] [(boundaryPaint.id, 1)]) ∧
    ∀ i : Fin 36, 0 ≤ mixSpectrum [boundaryPaint] [(boundaryPaint.id, 1)] i ∧
      mixSpectrum [boundaryPaint] [(boundaryPaint.id, 1)] i ≤ 1 :=
  mix_boundary_safe [boundaryPaint] [(boundaryPaint.id, 1)]
    (by
      intro p hp i
      simp only [List.mem_singleton] at hp
      subst hp
      by_cases h : i = (0 : Fin 36) <;> simp [boundaryPaint, h])
    (by norm_num [ratioSum])
    (by
      intro r hr
      simp only [List.mem_singleton] at hr
      subst hr
      exact ⟨boundaryPaint, List.mem_singleton_self _, rfl⟩)

end ArtistAssist
